import Mathlib

/-!
Verification of the entity synchronization and dead-reckoning rendering engine
of the worldview repository (FlightLayer / ShipLayer / SatelliteLayer and the
useFlights / useShips ingestion hooks), via a shallow embedding in Lean.

The JS `Map` objects (entityMapRef, positionMapRef, flightStateRef,
primitiveMapRef) are embedded as association lists keyed by entity id;
numeric fields of the sync path are rationals (the sync code performs no
transcendental arithmetic), while the dead-reckoning tick is embedded over
the reals since it uses trigonometric functions.
-/

set_option maxHeartbeats 1000000

namespace Worldview

/-- Association list keyed by entity id, modelling a JS `Map<string, α>`. -/
abbrev AssocList (α : Type) := List (String × α)

/-- `Map.get`. -/
def lookupA {α : Type} (k : String) : AssocList α → Option α
  | [] => none
  | (k', v) :: t => if k' = k then some v else lookupA k t

/-- `Map.set`: replace the entry in place when the key is present, append otherwise. -/
def insertA {α : Type} (k : String) (v : α) : AssocList α → AssocList α
  | [] => [(k, v)]
  | (k', v') :: t => if k' = k then (k, v) :: t else (k', v') :: insertA k v t

/-- The `Map.delete` loops of the sync effect: keep exactly the entries whose key
satisfies `p`. -/
def filterKeys {α : Type} (p : String → Bool) (l : AssocList α) : AssocList α :=
  l.filter (fun kv => p kv.1)

/-- The keys of an association list, in order. -/
def keysOf {α : Type} (l : AssocList α) : List String := l.map Prod.fst

/-- A colour value: css string plus alpha, modelling `Cesium.Color` as produced
by `Color.fromCssColorString` and `withAlpha`. -/
structure Color where
  css : String
  alpha : ℚ
deriving DecidableEq

def Color.fromCss (s : String) : Color := ⟨s, 1⟩

def Color.withAlpha (c : Color) (a : ℚ) : Color := { c with alpha := a }

/-- `Cartesian3.fromDegrees(lon, lat, alt)` kept in geographic form: the sync
path only stores and compares these positions and never does arithmetic on the
ECEF representation, so the degree triple is the faithful observable. -/
structure Cart3 where
  lon : ℚ
  lat : ℚ
  alt : ℚ
deriving DecidableEq

/-- The `Flight` record of useFlights.ts, restricted to the fields that the
FlightLayer sync and dead-reckoning effects and the ingestion filter read
(description-panel-only fields such as operator, squawk and verticalRate are
omitted). -/
structure Flight where
  icao24 : String
  callsign : String
  registration : String
  aircraftType : String
  originAirport : String
  destAirport : String
  latitude : ℚ
  longitude : ℚ
  altitude : ℚ
  altitudeFeet : ℚ
  onGround : Bool
  velocityKnots : Option ℚ
  heading : Option ℚ
deriving DecidableEq

/-- The `Ship` record of useShips.ts, restricted to the fields that the
ShipLayer sync and dead-reckoning effects and the ingestion filter read. -/
structure Ship where
  mmsi : String
  name : String
  latitude : ℚ
  longitude : ℚ
  heading : Option ℚ
  cog : Option ℚ
  sog : ℚ
  shipType : Option ℚ
  destination : Option String
deriving DecidableEq

/-- Altitude band keys of FlightLayer.tsx. -/
inductive AltitudeBand
  | cruise | high | mid | low | ground
deriving DecidableEq

/-- `getAltitudeBand` of FlightLayer.tsx. -/
def getAltitudeBand (altFeet : ℚ) : AltitudeBand :=
  if altFeet ≥ 35000 then .cruise
  else if altFeet ≥ 20000 then .high
  else if altFeet ≥ 10000 then .mid
  else if altFeet ≥ 3000 then .low
  else .ground

/-- `getAltitudeColor` of FlightLayer.tsx. -/
def getAltitudeColor (altFeet : ℚ) : Color :=
  if altFeet ≥ 35000 then Color.fromCss "#00D4FF"
  else if altFeet ≥ 20000 then Color.fromCss "#00BFFF"
  else if altFeet ≥ 10000 then Color.fromCss "#FFD700"
  else if altFeet ≥ 3000 then Color.fromCss "#FF8C00"
  else Color.fromCss "#FF4444"

/-- `getAltitudeScale` of FlightLayer.tsx. -/
def getAltitudeScale (altFeet : ℚ) : ℚ :=
  if altFeet ≥ 30000 then 0.45
  else if altFeet ≥ 15000 then 0.38
  else 0.3

/-- `ShipCategory` of useShips.ts. -/
inductive ShipCategory
  | cargo | tanker | passenger | fishing | military | tug | pleasure | highspeed | other
deriving DecidableEq

/-- `getShipCategory` of useShips.ts: map an AIS ship type code (a number or
null) to a broad category, in the exact branch order of the source. -/
def getShipCategory : Option ℚ → ShipCategory
  | none => .other
  | some t =>
      if 70 ≤ t ∧ t ≤ 79 then .cargo
      else if 80 ≤ t ∧ t ≤ 89 then .tanker
      else if 60 ≤ t ∧ t ≤ 69 then .passenger
      else if t = 30 then .fishing
      else if t = 35 then .military
      else if (31 ≤ t ∧ t ≤ 32) ∨ t = 52 then .tug
      else if 36 ≤ t ∧ t ≤ 37 then .pleasure
      else if 40 ≤ t ∧ t ≤ 49 then .highspeed
      else .other

/-- `CATEGORY_COLORS` of ShipLayer.tsx, a record total over `ShipCategory`. -/
def CATEGORY_COLORS : ShipCategory → Color
  | .cargo => Color.fromCss "#4A9EFF"
  | .tanker => Color.fromCss "#FF8C00"
  | .passenger => Color.fromCss "#00E676"
  | .fishing => Color.fromCss "#FFD740"
  | .military => Color.fromCss "#FF5252"
  | .tug => Color.fromCss "#CE93D8"
  | .pleasure => Color.fromCss "#80DEEA"
  | .highspeed => Color.fromCss "#FF80AB"
  | .other => Color.fromCss "#90A4AE"

/-- `getShipColor` of ShipLayer.tsx: `CATEGORY_COLORS[category] ?? CATEGORY_COLORS.other`.
The record is total over the category type, so the lookup always succeeds and
the `??` fallback never fires; the embedding is the total lookup itself. -/
def getShipColor (category : ShipCategory) : Color :=
  CATEGORY_COLORS category

/-- The useFlights.ts ingestion filter: keep airborne aircraft only
(`data.filter((f) => !f.onGround && f.altitude > 0)`). -/
def flightsAirborne (data : List Flight) : List Flight :=
  data.filter (fun f => !f.onGround && decide (0 < f.altitude))

/-- The useShips.ts ingestion filter: drop stationary vessels at (0, 0)
(`data.filter((s) => !(s.latitude === 0 && s.longitude === 0))`). -/
def shipsValid (data : List Ship) : List Ship :=
  data.filter (fun s => !(decide (s.latitude = 0) && decide (s.longitude = 0)))

/-- A backing `CesiumEntity` created by the sync effect for camera follow
(entityMapRef). `alloc` is an allocation token standing for object identity:
it is assigned once at creation and never changed by in-place mutation. -/
structure BackingEntity where
  alloc : Nat
  entId : String
  name : String
deriving DecidableEq

/-- The mutable billboard attributes written by the sync and tick effects. The
source stores `rotation = -CesiumMath.toRadians(heading)`; the radian
conversion is an injective unit change, so the embedding records the signed
degree value (0 when the heading is null). -/
structure BillboardData where
  position : Cart3
  color : Color
  scale : ℚ
  rotationDeg : ℚ
  shown : Bool
deriving DecidableEq

/-- The mutable label attributes written by the sync and tick effects. -/
structure LabelData where
  position : Cart3
  text : String
  fillColor : Color
  shown : Bool
deriving DecidableEq

/-- A RenderHandle: the billboard+label pair held in primitiveMapRef. `alloc`
is an allocation token standing for the object identity of the pair. -/
structure RenderHandle where
  alloc : Nat
  billboard : BillboardData
  label : LabelData
deriving DecidableEq

/-- A flightStateRef entry: the last authoritative kinematic state of one
aircraft, used by dead reckoning. -/
structure FlightDRState where
  lat : ℚ
  lon : ℚ
  alt : ℚ
  heading : Option ℚ
  speed : Option ℚ
  updatedAt : ℚ
deriving DecidableEq

/-- A shipStateRef entry of ShipLayer.tsx. -/
structure ShipDRState where
  lat : ℚ
  lon : ℚ
  heading : Option ℚ
  cog : Option ℚ
  sog : ℚ
  updatedAt : ℚ
deriving DecidableEq

/-- The refs mutated by the FlightLayer sync effect (Effect 2): the backing
entity map, the live position map read by the CallbackProperty accessors, the
dead-reckoning state map, the billboard/label handle map and the allocation
counter for fresh object identities. -/
structure FlightSyncState where
  entityMap : AssocList BackingEntity
  positionMap : AssocList Cart3
  flightState : AssocList FlightDRState
  primitiveMap : AssocList RenderHandle
  nextAlloc : Nat
deriving DecidableEq

/-- `callLabel` of the sync loop: `f.callsign || f.registration || f.icao24`
(JS falsiness on strings is emptiness). -/
def callLabelOf (f : Flight) : String :=
  if f.callsign ≠ "" then f.callsign
  else if f.registration ≠ "" then f.registration
  else f.icao24

/-- `fullLabel` of the sync loop. -/
def flightFullLabel (f : Flight) : String :=
  let callLabel := callLabelOf f
  let altLabel :=
    if 0 < f.altitudeFeet then "FL" ++ toString (round (f.altitudeFeet / 100)) else "GND"
  let speedLabel :=
    match f.velocityKnots with
    | some v => toString (round v) ++ "kt"
    | none => ""
  let typeLabel := f.aircraftType
  let routeLabel :=
    if f.originAirport ≠ "" ∧ f.destAirport ≠ "" then
      f.originAirport ++ "→" ++ f.destAirport
    else ""
  (callLabel ++ " " ++ altLabel ++ " " ++ speedLabel ++ " " ++ typeLabel ++ " "
    ++ routeLabel).trim

/-- Whether a flight passes the active altitude-band filter; the sync loop
`continue`s (no state at all is written) when this is false. -/
def passesFilter (filt : AltitudeBand → Bool) (f : Flight) : Bool :=
  filt (getAltitudeBand f.altitudeFeet)

/-- The ids of the records of a batch that pass the active filter. -/
def activeOf (filt : AltitudeBand → Bool) (flights : List Flight) : List String :=
  (flights.filter (passesFilter filt)).map Flight.icao24

/-- `Cartesian3.fromDegrees(f.longitude, f.latitude, f.altitude)`. -/
def cartOf (f : Flight) : Cart3 := ⟨f.longitude, f.latitude, f.altitude⟩

/-- `f.heading != null ? -CesiumMath.toRadians(f.heading) : 0`, recorded in
degrees. -/
def rotationDegOf (f : Flight) : ℚ :=
  match f.heading with
  | some h => -h
  | none => 0

/-- The flightStateRef entry written for a fresh record (`updatedAt: Date.now()`). -/
def flightDROf (now : ℚ) (f : Flight) : FlightDRState :=
  ⟨f.latitude, f.longitude, f.altitude, f.heading, f.velocityKnots, now⟩

/-- The in-place mutation of an existing billboard/label pair performed by the
sync loop: position, color, scale, rotation, label position, text and
fillColor are overwritten; the allocation token (object identity) and the show
flags are untouched. -/
def updatedHandle (f : Flight) (h : RenderHandle) : RenderHandle :=
  { alloc := h.alloc
    billboard :=
      { position := cartOf f
        color := getAltitudeColor f.altitudeFeet
        scale := getAltitudeScale f.altitudeFeet
        rotationDeg := rotationDegOf f
        shown := h.billboard.shown }
    label :=
      { position := cartOf f
        text := flightFullLabel f
        fillColor := (getAltitudeColor f.altitudeFeet).withAlpha 0.85
        shown := h.label.shown } }

/-- The billboard/label pair freshly allocated by the sync loop for an id with
no existing handle (`cols.billboards.add` / `cols.labels.add`). -/
def newHandle (f : Flight) (a : Nat) : RenderHandle :=
  { alloc := a
    billboard :=
      { position := cartOf f
        color := getAltitudeColor f.altitudeFeet
        scale := getAltitudeScale f.altitudeFeet
        rotationDeg := rotationDegOf f
        shown := true }
    label :=
      { position := cartOf f
        text := flightFullLabel f
        fillColor := (getAltitudeColor f.altitudeFeet).withAlpha 0.85
        shown := true } }

/-- One iteration of the sync loop of FlightLayer Effect 2 for a single flight
record: update the dead-reckoning state, the position map, the backing entity
(create with a fresh identity, or mutate the name in place) and the
billboard/label pair (create with a fresh identity, or mutate position, color,
scale, rotation, text and fillColor in place), and mark the id active. The
viewer-destroyed bail-outs (`break`) of the source are outside the model, which
describes the effect while the scene is alive. -/
def flightProcess (filt : AltitudeBand → Bool) (now : ℚ)
    (acc : FlightSyncState × List String) (f : Flight) : FlightSyncState × List String :=
  let s := acc.1
  let act := acc.2
  if passesFilter filt f then
    let act' := f.icao24 :: act
    let flightState' := insertA f.icao24 (flightDROf now f) s.flightState
    let positionMap' := insertA f.icao24 (cartOf f) s.positionMap
    let em :=
      match lookupA f.icao24 s.entityMap with
      | none =>
          (insertA f.icao24
            (BackingEntity.mk s.nextAlloc ("flight-" ++ f.icao24) (callLabelOf f))
            s.entityMap,
           s.nextAlloc + 1)
      | some e =>
          (insertA f.icao24 { e with name := callLabelOf f } s.entityMap, s.nextAlloc)
    let pm :=
      match lookupA f.icao24 s.primitiveMap with
      | some h => (insertA f.icao24 (updatedHandle f h) s.primitiveMap, em.2)
      | none => (insertA f.icao24 (newHandle f em.2) s.primitiveMap, em.2 + 1)
    ({ entityMap := em.1, positionMap := positionMap', flightState := flightState',
       primitiveMap := pm.1, nextAlloc := pm.2 }, act')
  else
    (s, act)

/-- FlightLayer Effect 2 (the sync effect) as one batch-commit transition.
`tracked` is the id whose backing entity is `viewer.trackedEntity` (none when
nothing is followed). When the layer is invisible or the batch empty the
billboard/label collections are cleared and the effect returns early; otherwise
the loop reconciles every record, stale handles (ids not active this commit)
are removed, and backing entities together with their position and
dead-reckoning entries are pruned — except for the tracked id, which is never
pruned. The trail/route polylines are rebuilt wholesale every commit and carry
no per-entity identity, so they are not modelled. -/
def flightSync (flights : List Flight) (visible : Bool) (filt : AltitudeBand → Bool)
    (tracked : Option String) (now : ℚ) (s : FlightSyncState) : FlightSyncState :=
  if !visible || flights.isEmpty then
    { s with primitiveMap := [] }
  else
    let la := flights.foldl (flightProcess filt now) (s, [])
    let s1 := la.1
    let act := la.2
    let keep : String → Bool := fun k => decide (k ∈ act) || decide (tracked = some k)
    let pruned : String → Bool := fun k => (lookupA k s1.entityMap).isSome && !(keep k)
    { entityMap := filterKeys keep s1.entityMap,
      positionMap := filterKeys (fun k => !(pruned k)) s1.positionMap,
      flightState := filterKeys (fun k => !(pruned k)) s1.flightState,
      primitiveMap := filterKeys (fun k => decide (k ∈ act)) s1.primitiveMap,
      nextAlloc := s1.nextAlloc }

/-- A Cartesian vector in ellipsoid-scaled space (the globe is the unit sphere). -/
structure Vec3 where
  x : ℚ
  y : ℚ
  z : ℚ
deriving DecidableEq

def Vec3.dot (a b : Vec3) : ℚ := a.x * b.x + a.y * b.y + a.z * b.z

def Vec3.sub (a b : Vec3) : Vec3 := ⟨a.x - b.x, a.y - b.y, a.z - b.z⟩

/-- Modelled from the spec: the per-tick horizon/visibility test on the
bounding ellipsoid (`EllipsoidalOccluder.isPointVisible` of the external Cesium
library, which is not part of this repository). In ellipsoid-scaled space with
the globe as the unit sphere and the camera at `camera`, a point is occluded
iff it lies beyond the camera's horizon plane and inside the horizon cone; the
division-free form compares `d = -(p - camera)·camera` against
`vh = |camera|² - 1`, and `d²` against `vh · |p - camera|²`. -/
def isPointVisible (camera p : Vec3) : Bool :=
  let vh := camera.dot camera - 1
  let vt := p.sub camera
  let d := -(vt.dot camera)
  !(decide (d > vh ∧ d * d > vh * (vt.dot vt)))

/-- Write the visibility verdict into both show flags of a handle
(`prims.billboard.show = vis; prims.label.show = vis`), leaving the identity
and every other attribute untouched. -/
def occludedUpdate (vis : Bool) (hdl : RenderHandle) : RenderHandle :=
  { alloc := hdl.alloc
    billboard := { hdl.billboard with shown := vis }
    label := { hdl.label with shown := vis } }

/-- The occlusion pass of ShipLayer Effect 4 (onPreUpdate): for every handle of
the primitive map whose id has a current position, set billboard.show and
label.show to the visibility verdict; no handle is ever removed. -/
def shipOcclusionPass (camera : Vec3) (positionMap : AssocList Vec3)
    (prims : AssocList RenderHandle) : AssocList RenderHandle :=
  prims.map (fun kv =>
    (kv.1,
      match lookupA kv.1 positionMap with
      | some pos => occludedUpdate (isPointVisible camera pos) kv.2
      | none => kv.2))

/-- The last record of a batch that passes the filter and carries the id `j`:
this is the record whose attributes the sync loop leaves in the handle when the
batch mentions `j` several times (later iterations overwrite earlier ones). -/
def lastPassing (filt : AltitudeBand → Bool) (fs : List Flight) (j : String) :
    Option Flight :=
  (fs.filter (fun f => passesFilter filt f && decide (f.icao24 = j))).getLast?

noncomputable section

open scoped Classical

/-- `CesiumMath.toRadians`. -/
def toRadians (d : ℝ) : ℝ := d * (Real.pi / 180)

/-- The guarded cosine of the latitude used in the longitude divisor:
`Math.cos(lat * (Math.PI / 180)) || 0.0001`. Over the reals the JS falsiness
guard fires exactly when the cosine is zero (the real model has no NaN, the
other value the guard replaces in the source). -/
def cosLatGuard (latDeg : ℝ) : ℝ :=
  if Real.cos (latDeg * (Real.pi / 180)) = 0 then 0.0001
  else Real.cos (latDeg * (Real.pi / 180))

/-- The planar dead-reckoning step shared verbatim by the tracked and bulk
ticks of FlightLayer.tsx and ShipLayer.tsx:
`lat += (Math.cos(headRad) * speedMps * dtSec) / 111320` and
`lon += (Math.sin(headRad) * speedMps * dtSec) / (111320 * cosLat)`, with
`headRad = toRadians(headingDeg)` and `cosLat = cosLatGuard` evaluated at the
already-updated latitude. Returns the updated (lat, lon). -/
def drStep (lat lon headingDeg speedMps dtSec : ℝ) : ℝ × ℝ :=
  let headRad := toRadians headingDeg
  let lat' := lat + (Real.cos headRad * speedMps * dtSec) / 111320
  let lon' := lon + (Real.sin headRad * speedMps * dtSec) / (111320 * cosLatGuard lat')
  (lat', lon')

/-- The tracked-flight per-frame tick of FlightLayer Effect 4: extrapolate when
heading and speed are known, speed > 10 kt and 0 < dt < 120 s, otherwise freeze
at the last authoritative position. Returns the (lat, lon) written to the
position map (the altitude written is always `state.alt`). -/
def flightTrackedDR (st : FlightDRState) (nowMs : ℝ) : ℝ × ℝ :=
  let dtSec := (nowMs - (st.updatedAt : ℝ)) / 1000
  match st.heading, st.speed with
  | some h, some sp =>
      if (sp : ℝ) > 10 ∧ 0 < dtSec ∧ dtSec < 120 then
        drStep (st.lat : ℝ) (st.lon : ℝ) (h : ℝ) ((sp : ℝ) * 0.514444) dtSec
      else ((st.lat : ℝ), (st.lon : ℝ))
  | _, _ => ((st.lat : ℝ), (st.lon : ℝ))

/-- The bulk tick of FlightLayer Effect 4 for one non-tracked flight: skip the
entity entirely (`continue` — the previously written position is left
untouched) when dt ≤ 0 or dt > 120 s; otherwise write the extrapolated
position, or the authoritative one when heading/speed are unusable. -/
def flightBulkDR (st : FlightDRState) (nowMs : ℝ) : Option (ℝ × ℝ) :=
  let dtSec := (nowMs - (st.updatedAt : ℝ)) / 1000
  if dtSec ≤ 0 ∨ dtSec > 120 then none
  else some (match st.heading, st.speed with
    | some h, some sp =>
        if (sp : ℝ) > 10 then
          drStep (st.lat : ℝ) (st.lon : ℝ) (h : ℝ) ((sp : ℝ) * 0.514444) dtSec
        else ((st.lat : ℝ), (st.lon : ℝ))
    | _, _ => ((st.lat : ℝ), (st.lon : ℝ)))

/-- The tracked-ship per-frame tick of ShipLayer Effect 4: the heading falls
back to COG, the speed threshold is 0.5 kt and the horizon is 300 s. -/
def shipTrackedDR (st : ShipDRState) (nowMs : ℝ) : ℝ × ℝ :=
  let dtSec := (nowMs - (st.updatedAt : ℝ)) / 1000
  match st.heading.orElse (fun _ => st.cog) with
  | some h =>
      if (st.sog : ℝ) > 0.5 ∧ 0 < dtSec ∧ dtSec < 300 then
        drStep (st.lat : ℝ) (st.lon : ℝ) (h : ℝ) ((st.sog : ℝ) * 0.514444) dtSec
      else ((st.lat : ℝ), (st.lon : ℝ))
  | none => ((st.lat : ℝ), (st.lon : ℝ))

/-- The bulk tick of ShipLayer Effect 4 for one non-tracked ship: skip entirely
when dt ≤ 0 or dt > 300 s, otherwise write the extrapolated (or frozen)
position. -/
def shipBulkDR (st : ShipDRState) (nowMs : ℝ) : Option (ℝ × ℝ) :=
  let dtSec := (nowMs - (st.updatedAt : ℝ)) / 1000
  if dtSec ≤ 0 ∨ dtSec > 300 then none
  else some (match st.heading.orElse (fun _ => st.cog) with
    | some h =>
        if (st.sog : ℝ) > 0.5 then
          drStep (st.lat : ℝ) (st.lon : ℝ) (h : ℝ) ((st.sog : ℝ) * 0.514444) dtSec
        else ((st.lat : ℝ), (st.lon : ℝ))
    | none => ((st.lat : ℝ), (st.lon : ℝ)))

end

/-- A vessel record with out-of-range coordinates (latitude and longitude 999),
used to exercise the ingestion filter on malformed input. -/
def shipOutOfRange : Ship :=
  ⟨"999999999", "BADCOORD", 999, 999, none, none, 0, none, none⟩

/-- A flight dead-reckoning state with known heading and speed (90°, 100 kt),
authoritative at epoch 0 at the origin. -/
def fastFlightState : FlightDRState := ⟨0, 0, 10000, some 90, some 100, 0⟩

/-- A minimal airborne cruise-band flight record for concrete instantiations. -/
def flightA : Flight :=
  ⟨"abc123", "TEST123", "N123AB", "B738", "KLAX", "KSFO",
   10, 20, 11000, 36000, false, some 450, some 90⟩

/-- A second flight record with a distinct id. -/
def flightB : Flight :=
  { flightA with icao24 := "def456", callsign := "TEST456" }

/-- The all-pass altitude filter (every band toggled on). -/
def allBands : AltitudeBand → Bool := fun _ => true

/-- The empty sync state (all refs fresh). -/
def emptyState : FlightSyncState := ⟨[], [], [], [], 0⟩

/-- A concrete render handle for instantiations. -/
def sampleHandle : RenderHandle :=
  ⟨7, ⟨⟨0, 0, 0⟩, Color.fromCss "#90A4AE", 0.4, 0, true⟩,
   ⟨⟨0, 0, 0⟩, "VESSEL", Color.fromCss "#90A4AE", true⟩⟩

/-- A sync state holding exactly one followed aircraft with id "zzz" (backing
entity, live position, dead-reckoning state and handle), for instantiations. -/
def trackedState : FlightSyncState :=
  ⟨[("zzz", ⟨3, "flight-zzz", "ZZZ"⟩)],
   [("zzz", ⟨1, 2, 3000⟩)],
   [("zzz", fastFlightState)],
   [("zzz", sampleHandle)],
   10⟩

theorem lookupA_insertA {α : Type} (k j : String) (v : α) (l : AssocList α) :
    lookupA j (insertA k v l) = if k = j then some v else lookupA j l := by
  induction l with
  | nil => simp [insertA, lookupA]
  | cons kv t ih =>
      obtain ⟨k', v'⟩ := kv
      by_cases hk : k' = k
      · subst hk
        simp only [insertA, if_pos rfl, lookupA]
        by_cases hj : k' = j
        · simp [hj]
        · simp [hj]
      · simp only [insertA, if_neg hk, lookupA]
        by_cases hj : k' = j
        · have hkj : ¬ k = j := by
            rw [← hj]; exact fun h => hk h.symm
          simp [hj, hkj]
        · simp [hj, ih]

theorem lookupA_filterKeys {α : Type} (p : String → Bool) (k : String) (l : AssocList α) :
    lookupA k (filterKeys p l) = if p k then lookupA k l else none := by
  induction l with
  | nil => simp [filterKeys, lookupA]
  | cons kv t ih =>
      obtain ⟨k', v'⟩ := kv
      by_cases hk : k' = k
      · subst hk
        by_cases hp : p k'
        · simp [filterKeys, lookupA, hp]
        · simp only [filterKeys, List.filter_cons, hp, Bool.false_eq_true, if_neg] at ih ⊢
          simp [ih, hp]
      · by_cases hp : p k'
        · simp only [filterKeys, List.filter_cons, hp, if_pos, lookupA, hk] at ih ⊢
          simpa [hk] using ih
        · simp only [filterKeys, List.filter_cons, hp, Bool.false_eq_true, if_neg,
            lookupA] at ih ⊢
          simpa [hk] using ih

theorem keysOf_filterKeys {α : Type} (p : String → Bool) (l : AssocList α) :
    keysOf (filterKeys p l) = (keysOf l).filter p := by
  induction l with
  | nil => rfl
  | cons kv t ih =>
      obtain ⟨k', v'⟩ := kv
      by_cases hp : p k'
      · simpa [filterKeys, keysOf, hp] using ih
      · simpa [filterKeys, keysOf, hp] using ih

theorem mem_keysOf_insertA {α : Type} (k j : String) (v : α) (l : AssocList α) :
    j ∈ keysOf (insertA k v l) ↔ j = k ∨ j ∈ keysOf l := by
  induction l with
  | nil => simp [insertA, keysOf]
  | cons kv t ih =>
      obtain ⟨k', v'⟩ := kv
      by_cases hk : k' = k
      · subst hk
        simp [insertA, keysOf]
      · simp [insertA, hk, keysOf] at ih ⊢
        constructor
        · rintro (h | h)
          · tauto
          · rcases ih.1 h with h' | h' <;> tauto
        · rintro (h | h | h)
          · exact Or.inr (ih.2 (Or.inl h))
          · exact Or.inl h
          · exact Or.inr (ih.2 (Or.inr h))

theorem nodup_keysOf_insertA {α : Type} (k : String) (v : α) (l : AssocList α)
    (h : (keysOf l).Nodup) : (keysOf (insertA k v l)).Nodup := by
  induction l with
  | nil => simp [insertA, keysOf]
  | cons kv t ih =>
      obtain ⟨k', v'⟩ := kv
      simp only [keysOf, List.map_cons, List.nodup_cons] at h
      by_cases hk : k' = k
      · subst hk
        simpa [insertA, keysOf, List.nodup_cons] using h
      · simp only [insertA, if_neg hk, keysOf, List.map_cons, List.nodup_cons]
        refine ⟨?_, ih h.2⟩
        intro hmem
        rcases (mem_keysOf_insertA k k' v t).1 hmem with h' | h'
        · exact hk h'
        · exact h.1 h'

theorem nodup_keysOf_filterKeys {α : Type} (p : String → Bool) (l : AssocList α)
    (h : (keysOf l).Nodup) : (keysOf (filterKeys p l)).Nodup := by
  rw [keysOf_filterKeys]
  exact h.filter p

theorem lookupA_isSome_iff_mem {α : Type} (k : String) (l : AssocList α) :
    (lookupA k l).isSome ↔ k ∈ keysOf l := by
  induction l with
  | nil => simp [lookupA, keysOf]
  | cons kv t ih =>
      obtain ⟨k', v'⟩ := kv
      by_cases hk : k' = k
      · subst hk; simp [lookupA, keysOf]
      · have hk' : ¬ k = k' := fun h => hk h.symm
        simp [lookupA, hk, keysOf, ih, hk']

theorem lookupA_mapVal {α β : Type} (g : String → α → β) (k : String) (l : AssocList α) :
    lookupA k (l.map (fun kv => (kv.1, g kv.1 kv.2))) = (lookupA k l).map (g k) := by
  induction l with
  | nil => simp [lookupA]
  | cons kv t ih =>
      obtain ⟨k', v'⟩ := kv
      by_cases hk : k' = k
      · subst hk; simp [lookupA]
      · simp [lookupA, hk, ih]

/-- C6 (counterexample): a vessel record whose coordinates are far outside the
valid geographic range (latitude = longitude = 999) is NOT dropped by the
useShips ingestion filter — it is kept verbatim, so state and a RenderHandle
will be created for it. This contradicts the claim that ingestion drops every
record with out-of-range coordinates. -/
theorem c6_out_of_range_not_dropped :
    shipsValid [shipOutOfRange] = [shipOutOfRange] ∧
    shipOutOfRange.latitude = 999 ∧ shipOutOfRange.longitude = 999 := by
  refine ⟨?_, rfl, rfl⟩
  decide

/-- C6 (amended): ingestion filtering is per-record and silent (a total filter,
never an error), but the only coordinate check is the AIS-default (0, 0) test
for ships; flights are dropped exactly when on ground or at non-positive
altitude. Records with otherwise missing/NaN/out-of-range coordinates are not
checked. A record is kept iff it is in the input and passes its filter, so
processing of the other records of a batch always continues. -/
theorem c6_ingestion_filters (data : List Flight) (sdata : List Ship) :
    (∀ f : Flight, f ∈ flightsAirborne data ↔
        f ∈ data ∧ f.onGround = false ∧ 0 < f.altitude) ∧
    (∀ s : Ship, s ∈ shipsValid sdata ↔
        s ∈ sdata ∧ ¬(s.latitude = 0 ∧ s.longitude = 0)) := by
  constructor
  · intro f
    simp [flightsAirborne, List.mem_filter]
  · intro s
    simp [shipsValid, List.mem_filter]
    tauto

/-- C7: the classification functions are total and never error: getShipCategory
maps null to the neutral category, maps every unrecognised code to the neutral
category, and always lands in the nine declared categories; getAltitudeBand
always lands in the five declared bands; getShipColor is the total
CATEGORY_COLORS lookup, whose neutral entry is the grey-blue `other` colour. -/
theorem c7_classification_total :
    getShipCategory none = ShipCategory.other ∧
    (∀ oc : Option ℚ, getShipCategory oc ∈
      [ShipCategory.cargo, ShipCategory.tanker, ShipCategory.passenger,
       ShipCategory.fishing, ShipCategory.military, ShipCategory.tug,
       ShipCategory.pleasure, ShipCategory.highspeed, ShipCategory.other]) ∧
    (∀ t : ℚ,
      ¬((70 ≤ t ∧ t ≤ 79) ∨ (80 ≤ t ∧ t ≤ 89) ∨ (60 ≤ t ∧ t ≤ 69) ∨ t = 30 ∨
        t = 35 ∨ ((31 ≤ t ∧ t ≤ 32) ∨ t = 52) ∨ (36 ≤ t ∧ t ≤ 37) ∨
        (40 ≤ t ∧ t ≤ 49)) →
      getShipCategory (some t) = ShipCategory.other) ∧
    (∀ a : ℚ, getAltitudeBand a ∈
      [AltitudeBand.cruise, AltitudeBand.high, AltitudeBand.mid,
       AltitudeBand.low, AltitudeBand.ground]) ∧
    (∀ c : ShipCategory, getShipColor c = CATEGORY_COLORS c) ∧
    getShipColor ShipCategory.other = Color.fromCss "#90A4AE" := by
  refine ⟨rfl, ?_, ?_, ?_, fun c => rfl, rfl⟩
  · intro oc
    cases oc with
    | none => simp [getShipCategory]
    | some t =>
        simp only [getShipCategory]
        repeat' split
        all_goals simp
  · intro t h
    have h1 : ¬(70 ≤ t ∧ t ≤ 79) := fun hc => h (Or.inl hc)
    have h2 : ¬(80 ≤ t ∧ t ≤ 89) := fun hc => h (Or.inr (Or.inl hc))
    have h3 : ¬(60 ≤ t ∧ t ≤ 69) := fun hc => h (Or.inr (Or.inr (Or.inl hc)))
    have h4 : ¬(t = 30) := fun hc => h (Or.inr (Or.inr (Or.inr (Or.inl hc))))
    have h5 : ¬(t = 35) := fun hc =>
      h (Or.inr (Or.inr (Or.inr (Or.inr (Or.inl hc)))))
    have h6 : ¬((31 ≤ t ∧ t ≤ 32) ∨ t = 52) := fun hc =>
      h (Or.inr (Or.inr (Or.inr (Or.inr (Or.inr (Or.inl hc))))))
    have h7 : ¬(36 ≤ t ∧ t ≤ 37) := fun hc =>
      h (Or.inr (Or.inr (Or.inr (Or.inr (Or.inr (Or.inr (Or.inl hc)))))))
    have h8 : ¬(40 ≤ t ∧ t ≤ 49) := fun hc =>
      h (Or.inr (Or.inr (Or.inr (Or.inr (Or.inr (Or.inr (Or.inr hc)))))))
    simp only [getShipCategory]
    rw [if_neg h1, if_neg h2, if_neg h3, if_neg h4, if_neg h5, if_neg h6,
      if_neg h7, if_neg h8]
  · intro a
    simp only [getAltitudeBand]
    repeat' split
    all_goals simp

/-- C7 (witness): the classification of the concrete unrecognised AIS type
code 50 is the neutral category. -/
theorem c7_classification_total_witness :
    getShipCategory (some 50) = ShipCategory.other :=
  c7_classification_total.2.2.1 50 (by norm_num)

/-- C10: the dead-reckoning longitude update never divides by zero — for every
latitude the guarded cosine (`Math.cos(...) || 0.0001`) is nonzero, hence so is
the longitude divisor `111320 * cosLat`, and the longitude component of drStep
is exactly the guarded-quotient form (a well-defined real for finite speed, dt
and heading). -/
theorem c10_no_division_by_zero :
    ∀ latDeg : ℝ, cosLatGuard latDeg ≠ 0 ∧ (111320 : ℝ) * cosLatGuard latDeg ≠ 0 ∧
    ∀ lon headingDeg speedMps dtSec : ℝ,
      (drStep latDeg lon headingDeg speedMps dtSec).2 =
        lon + (Real.sin (toRadians headingDeg) * speedMps * dtSec) /
          (111320 * cosLatGuard (drStep latDeg lon headingDeg speedMps dtSec).1) := by
  intro x
  have hg : cosLatGuard x ≠ 0 := by
    unfold cosLatGuard
    split
    · norm_num
    · assumption
  refine ⟨hg, mul_ne_zero (by norm_num) hg, ?_⟩
  intro lon headingDeg speedMps dtSec
  rfl

theorem toRadians_ninety : toRadians (90 : ℝ) = Real.pi / 2 := by
  unfold toRadians; ring

theorem cos_toRadians_ninety : Real.cos (toRadians (90 : ℝ)) = 0 := by
  rw [toRadians_ninety, Real.cos_pi_div_two]

theorem sin_toRadians_ninety : Real.sin (toRadians (90 : ℝ)) = 1 := by
  rw [toRadians_ninety, Real.sin_pi_div_two]

theorem cosLatGuard_zero : cosLatGuard 0 = 1 := by
  unfold cosLatGuard
  rw [zero_mul, Real.cos_zero]
  norm_num

/-- Due-east dead reckoning from the equator: the latitude is unchanged and the
longitude advances by `speed·dt/111320` degrees. -/
theorem drStep_east_from_equator (lon speedMps dtSec : ℝ) :
    drStep 0 lon 90 speedMps dtSec = (0, lon + speedMps * dtSec / 111320) := by
  simp only [drStep, cos_toRadians_ninety, sin_toRadians_ninety, zero_mul, mul_zero,
    zero_div, add_zero, one_mul, cosLatGuard_zero, mul_one]

/-- C3: for heading 90°, speed 100 m/s, dt 10 s and latitude 0 the
dead-reckoning step leaves the latitude unchanged and advances the longitude by
exactly 100·10/111320 degrees, which is within 1% of 0.00898°. -/
theorem c3_dead_reckoning_example :
    (drStep 0 0 90 100 10).1 = 0 ∧
    (drStep 0 0 90 100 10).2 = 1000 / 111320 ∧
    |(drStep 0 0 90 100 10).2 - 0.00898| ≤ 0.01 * 0.00898 := by
  rw [drStep_east_from_equator 0 100 10]
  norm_num [abs_le]

/-- C2 (amended): for dt ≥ horizon the TRACKED tick freezes exactly at the last
authoritative position (horizon 120 s for flights, 300 s for ships); the BULK
tick instead skips the write entirely when dt > horizon — leaving the
previously written (possibly extrapolated) position untouched rather than
resetting it to last-known — and at dt = horizon exactly it still
extrapolates. -/
theorem c2_horizon_freeze :
    (∀ (st : FlightDRState) (nowMs : ℝ),
        120 ≤ (nowMs - (st.updatedAt : ℝ)) / 1000 →
        flightTrackedDR st nowMs = ((st.lat : ℝ), (st.lon : ℝ))) ∧
    (∀ (st : ShipDRState) (nowMs : ℝ),
        300 ≤ (nowMs - (st.updatedAt : ℝ)) / 1000 →
        shipTrackedDR st nowMs = ((st.lat : ℝ), (st.lon : ℝ))) ∧
    (∀ (st : FlightDRState) (nowMs : ℝ),
        120 < (nowMs - (st.updatedAt : ℝ)) / 1000 →
        flightBulkDR st nowMs = none) ∧
    (∀ (st : ShipDRState) (nowMs : ℝ),
        300 < (nowMs - (st.updatedAt : ℝ)) / 1000 →
        shipBulkDR st nowMs = none) := by
  refine ⟨?_, ?_, ?_, ?_⟩
  · intro st nowMs hdt
    rcases hh : st.heading with _ | h
    · simp [flightTrackedDR, hh]
    · rcases hs : st.speed with _ | sp
      · simp [flightTrackedDR, hh, hs]
      · simp only [flightTrackedDR, hh, hs]
        rw [if_neg]
        push_neg
        intro _ _
        linarith
  · intro st nowMs hdt
    rcases hh : st.heading.orElse (fun _ => st.cog) with _ | h
    · simp [shipTrackedDR, hh]
    · simp only [shipTrackedDR, hh]
      rw [if_neg]
      push_neg
      intro _ _
      linarith
  · intro st nowMs hdt
    simp only [flightBulkDR]
    rw [if_pos]
    exact Or.inr hdt
  · intro st nowMs hdt
    simp only [shipBulkDR]
    rw [if_pos]
    exact Or.inr hdt

/-- C2 (counterexample): at dt exactly equal to the 120 s flight horizon the
bulk tick does not freeze at the last authoritative position: for the state
fastFlightState (heading 90°, speed 100 kt, authoritative at epoch 0 at the
origin) the bulk tick at nowMs = 120000 produces a position, and that position
differs from the last authoritative one — the claim that at dt ≥ horizon the
position produced by the tick equals the last authoritative position fails on
the bulk path. -/
theorem c2_bulk_horizon_counterexample :
    (flightBulkDR fastFlightState 120000).isSome = true ∧
    flightBulkDR fastFlightState 120000 ≠
      some ((fastFlightState.lat : ℝ), (fastFlightState.lon : ℝ)) := by
  have key : flightBulkDR fastFlightState 120000 =
      some (0, 0 + 100 * 0.514444 * 120 / 111320) := by
    simp only [flightBulkDR, fastFlightState]
    norm_num
    rw [drStep_east_from_equator]
    norm_num
  rw [key]
  refine ⟨rfl, ?_⟩
  intro hcontra
  rw [Option.some.injEq, Prod.mk.injEq] at hcontra
  have h2 := hcontra.2
  norm_num [fastFlightState] at h2

/-- C2 (witness): at dt = 240 s the tracked flight tick freezes exactly at the
last authoritative position of fastFlightState, and the flight bulk tick
writes nothing. -/
theorem c2_horizon_freeze_witness :
    flightTrackedDR fastFlightState 240000 =
      ((fastFlightState.lat : ℝ), (fastFlightState.lon : ℝ)) ∧
    flightBulkDR fastFlightState 240000 = none := by
  constructor
  · exact c2_horizon_freeze.1 fastFlightState 240000 (by norm_num [fastFlightState])
  · exact c2_horizon_freeze.2.2.1 fastFlightState 240000 (by norm_num [fastFlightState])

theorem isPointVisible_eq_true_iff (c p : Vec3) :
    isPointVisible c p = true ↔
    ¬(-((p.sub c).dot c) > c.dot c - 1 ∧
      (-((p.sub c).dot c)) * (-((p.sub c).dot c)) >
        (c.dot c - 1) * ((p.sub c).dot (p.sub c))) := by
  simp only [isPointVisible, Bool.not_eq_true', decide_eq_false_iff_not]

theorem isPointVisible_eq_false_iff (c p : Vec3) :
    isPointVisible c p = false ↔
    (-((p.sub c).dot c) > c.dot c - 1 ∧
      (-((p.sub c).dot c)) * (-((p.sub c).dot c)) >
        (c.dot c - 1) * ((p.sub c).dot (p.sub c))) := by
  simp only [isPointVisible, Bool.not_eq_false', decide_eq_true_eq]

/-- C9: the per-tick occlusion pass of ShipLayer sets the show flag of both the
icon and the label of every handle with a live position to the ellipsoid
visibility verdict of that position — hiding it when the test fails — while
preserving the full set of handles and the identity of each one; and at the
geometric boundary (camera on the +z axis above the unit globe at height
h > 1) the surface point directly beneath the camera is visible while the
antipodal point is hidden. -/
theorem c9_occlusion_boundary :
    (∀ (camera : Vec3) (posMap : AssocList Vec3) (prims : AssocList RenderHandle),
        keysOf (shipOcclusionPass camera posMap prims) = keysOf prims) ∧
    (∀ (camera : Vec3) (posMap : AssocList Vec3) (prims : AssocList RenderHandle)
        (k : String) (hdl : RenderHandle) (pos : Vec3),
        lookupA k prims = some hdl → lookupA k posMap = some pos →
        lookupA k (shipOcclusionPass camera posMap prims) =
          some (occludedUpdate (isPointVisible camera pos) hdl) ∧
        (occludedUpdate (isPointVisible camera pos) hdl).alloc = hdl.alloc ∧
        (occludedUpdate (isPointVisible camera pos) hdl).billboard.shown =
          isPointVisible camera pos ∧
        (occludedUpdate (isPointVisible camera pos) hdl).label.shown =
          isPointVisible camera pos) ∧
    (∀ h : ℚ, 1 < h →
        isPointVisible ⟨0, 0, h⟩ ⟨0, 0, 1⟩ = true ∧
        isPointVisible ⟨0, 0, h⟩ ⟨0, 0, -1⟩ = false) := by
  refine ⟨?_, ?_, ?_⟩
  · intro camera posMap prims
    induction prims with
    | nil => rfl
    | cons kv t ih =>
        simp only [shipOcclusionPass, keysOf, List.map_cons] at ih ⊢
        rw [ih]
  · intro camera posMap prims k hdl pos hp hpos
    refine ⟨?_, rfl, rfl, rfl⟩
    induction prims with
    | nil => simp [lookupA] at hp
    | cons kv t ih =>
        obtain ⟨k', v'⟩ := kv
        by_cases hk : k' = k
        · subst hk
          simp only [lookupA, if_pos, Option.some.injEq] at hp
          subst hp
          simp [shipOcclusionPass, lookupA, hpos]
        · simp only [lookupA, if_neg hk] at hp
          simpa [shipOcclusionPass, lookupA, hk] using ih hp
  · intro h hh
    constructor
    · rw [isPointVisible_eq_true_iff]
      simp only [Vec3.sub, Vec3.dot]
      intro hand
      nlinarith [hand.1]
    · rw [isPointVisible_eq_false_iff]
      simp only [Vec3.sub, Vec3.dot]
      have hp : (0 : ℚ) < (1 + h) * (1 + h) := by nlinarith
      constructor
      · nlinarith
      · nlinarith [hp]

section SyncLemmas

variable (filt : AltitudeBand → Bool) (now : ℚ)

theorem flightProcess_not_pass (s : FlightSyncState) (act : List String) (f : Flight)
    (h : ¬ passesFilter filt f = true) :
    flightProcess filt now (s, act) f = (s, act) := by
  simp [flightProcess, h]

theorem flightProcess_snd (s : FlightSyncState) (act : List String) (f : Flight) :
    (flightProcess filt now (s, act) f).2 =
      if passesFilter filt f then f.icao24 :: act else act := by
  by_cases h : passesFilter filt f
  · rcases he : lookupA f.icao24 s.entityMap with _ | e <;>
      rcases hp : lookupA f.icao24 s.primitiveMap with _ | hdl <;>
        simp [flightProcess, h, he, hp]
  · simp [flightProcess, h]

theorem flightProcess_prim_self_update (s : FlightSyncState) (act : List String)
    (f : Flight) (hdl : RenderHandle)
    (hpass : passesFilter filt f = true)
    (hex : lookupA f.icao24 s.primitiveMap = some hdl) :
    lookupA f.icao24 (flightProcess filt now (s, act) f).1.primitiveMap =
      some (updatedHandle f hdl) := by
  rcases he : lookupA f.icao24 s.entityMap with _ | e <;>
    simp [flightProcess, hpass, hex, he, lookupA_insertA]

theorem flightProcess_prim_self_new (s : FlightSyncState) (act : List String)
    (f : Flight)
    (hpass : passesFilter filt f = true)
    (hex : lookupA f.icao24 s.primitiveMap = none) :
    ∃ a, lookupA f.icao24 (flightProcess filt now (s, act) f).1.primitiveMap =
      some (newHandle f a) := by
  rcases he : lookupA f.icao24 s.entityMap with _ | e
  · exact ⟨s.nextAlloc + 1, by simp [flightProcess, hpass, hex, he, lookupA_insertA]⟩
  · exact ⟨s.nextAlloc, by simp [flightProcess, hpass, hex, he, lookupA_insertA]⟩

theorem flightProcess_prim_other (s : FlightSyncState) (act : List String)
    (f : Flight) (j : String) (hj : ¬ j = f.icao24) :
    lookupA j (flightProcess filt now (s, act) f).1.primitiveMap =
      lookupA j s.primitiveMap := by
  have hj' : ¬ f.icao24 = j := fun h => hj h.symm
  by_cases hpass : passesFilter filt f
  · rcases he : lookupA f.icao24 s.entityMap with _ | e <;>
      rcases hp : lookupA f.icao24 s.primitiveMap with _ | hdl <;>
        simp [flightProcess, hpass, he, hp, lookupA_insertA, hj']
  · simp [flightProcess, hpass]

theorem flightProcess_entity_self_update (s : FlightSyncState) (act : List String)
    (f : Flight) (e : BackingEntity)
    (hpass : passesFilter filt f = true)
    (hex : lookupA f.icao24 s.entityMap = some e) :
    lookupA f.icao24 (flightProcess filt now (s, act) f).1.entityMap =
      some { e with name := callLabelOf f } := by
  rcases hp : lookupA f.icao24 s.primitiveMap with _ | hdl <;>
    simp [flightProcess, hpass, hex, hp, lookupA_insertA]

theorem flightProcess_entity_self_new (s : FlightSyncState) (act : List String)
    (f : Flight)
    (hpass : passesFilter filt f = true)
    (hex : lookupA f.icao24 s.entityMap = none) :
    lookupA f.icao24 (flightProcess filt now (s, act) f).1.entityMap =
      some (BackingEntity.mk s.nextAlloc ("flight-" ++ f.icao24) (callLabelOf f)) := by
  rcases hp : lookupA f.icao24 s.primitiveMap with _ | hdl <;>
    simp [flightProcess, hpass, hex, hp, lookupA_insertA]

theorem flightProcess_entity_other (s : FlightSyncState) (act : List String)
    (f : Flight) (j : String) (hj : ¬ j = f.icao24) :
    lookupA j (flightProcess filt now (s, act) f).1.entityMap =
      lookupA j s.entityMap := by
  have hj' : ¬ f.icao24 = j := fun h => hj h.symm
  by_cases hpass : passesFilter filt f
  · rcases he : lookupA f.icao24 s.entityMap with _ | e <;>
      rcases hp : lookupA f.icao24 s.primitiveMap with _ | hdl <;>
        simp [flightProcess, hpass, he, hp, lookupA_insertA, hj']
  · simp [flightProcess, hpass]

theorem flightProcess_pos_self (s : FlightSyncState) (act : List String) (f : Flight)
    (hpass : passesFilter filt f = true) :
    lookupA f.icao24 (flightProcess filt now (s, act) f).1.positionMap =
      some (cartOf f) := by
  rcases he : lookupA f.icao24 s.entityMap with _ | e <;>
    rcases hp : lookupA f.icao24 s.primitiveMap with _ | hdl <;>
      simp [flightProcess, hpass, he, hp, lookupA_insertA]

theorem flightProcess_pos_other (s : FlightSyncState) (act : List String)
    (f : Flight) (j : String) (hj : ¬ j = f.icao24) :
    lookupA j (flightProcess filt now (s, act) f).1.positionMap =
      lookupA j s.positionMap := by
  have hj' : ¬ f.icao24 = j := fun h => hj h.symm
  by_cases hpass : passesFilter filt f
  · rcases he : lookupA f.icao24 s.entityMap with _ | e <;>
      rcases hp : lookupA f.icao24 s.primitiveMap with _ | hdl <;>
        simp [flightProcess, hpass, he, hp, lookupA_insertA, hj']
  · simp [flightProcess, hpass]

theorem flightProcess_state_self (s : FlightSyncState) (act : List String) (f : Flight)
    (hpass : passesFilter filt f = true) :
    lookupA f.icao24 (flightProcess filt now (s, act) f).1.flightState =
      some (flightDROf now f) := by
  rcases he : lookupA f.icao24 s.entityMap with _ | e <;>
    rcases hp : lookupA f.icao24 s.primitiveMap with _ | hdl <;>
      simp [flightProcess, hpass, he, hp, lookupA_insertA]

theorem flightProcess_state_other (s : FlightSyncState) (act : List String)
    (f : Flight) (j : String) (hj : ¬ j = f.icao24) :
    lookupA j (flightProcess filt now (s, act) f).1.flightState =
      lookupA j s.flightState := by
  have hj' : ¬ f.icao24 = j := fun h => hj h.symm
  by_cases hpass : passesFilter filt f
  · rcases he : lookupA f.icao24 s.entityMap with _ | e <;>
      rcases hp : lookupA f.icao24 s.primitiveMap with _ | hdl <;>
        simp [flightProcess, hpass, he, hp, lookupA_insertA, hj']
  · simp [flightProcess, hpass]

theorem flightProcess_prim_nodup (s : FlightSyncState) (act : List String) (f : Flight)
    (h : (keysOf s.primitiveMap).Nodup) :
    (keysOf (flightProcess filt now (s, act) f).1.primitiveMap).Nodup := by
  by_cases hpass : passesFilter filt f
  · rcases he : lookupA f.icao24 s.entityMap with _ | e <;>
      rcases hp : lookupA f.icao24 s.primitiveMap with _ | hdl <;>
        simp [flightProcess, hpass, he, hp] <;>
          exact nodup_keysOf_insertA _ _ _ h
  · simpa [flightProcess, hpass] using h

theorem activeOf_nil : activeOf filt [] = [] := rfl

theorem activeOf_cons (f : Flight) (fs : List Flight) :
    activeOf filt (f :: fs) =
      if passesFilter filt f then f.icao24 :: activeOf filt fs
      else activeOf filt fs := by
  by_cases h : passesFilter filt f <;> simp [activeOf, h]

theorem mem_activeOf_iff (fs : List Flight) (j : String) :
    j ∈ activeOf filt fs ↔
      ∃ f, f ∈ fs ∧ passesFilter filt f = true ∧ f.icao24 = j := by
  simp only [activeOf, List.mem_map, List.mem_filter]
  constructor
  · rintro ⟨f, ⟨hf, hp⟩, hj⟩
    exact ⟨f, hf, hp, hj⟩
  · rintro ⟨f, hf, hp, hj⟩
    exact ⟨f, ⟨hf, hp⟩, hj⟩

theorem foldl_act_mem :
    ∀ (fs : List Flight) (s : FlightSyncState) (act : List String) (j : String),
      j ∈ (fs.foldl (flightProcess filt now) (s, act)).2 ↔
        j ∈ act ∨ j ∈ activeOf filt fs := by
  intro fs
  induction fs with
  | nil => intro s act j; simp [activeOf]
  | cons f fs ih =>
      intro s act j
      rw [List.foldl_cons]
      rcases hX : flightProcess filt now (s, act) f with ⟨s', act'⟩
      have hact : act' = if passesFilter filt f then f.icao24 :: act else act := by
        have h2 := flightProcess_snd filt now s act f
        rw [hX] at h2
        exact h2
      rw [ih s' act' j, hact, activeOf_cons]
      by_cases h : passesFilter filt f
      · simp only [h, if_pos, List.mem_cons]
        tauto
      · simp [h]

theorem foldl_prim_isSome :
    ∀ (fs : List Flight) (s : FlightSyncState) (act : List String) (j : String),
      (lookupA j (fs.foldl (flightProcess filt now) (s, act)).1.primitiveMap).isSome
          = true ↔
        (lookupA j s.primitiveMap).isSome = true ∨ j ∈ activeOf filt fs := by
  intro fs
  induction fs with
  | nil => intro s act j; simp [activeOf]
  | cons f fs ih =>
      intro s act j
      rw [List.foldl_cons]
      rcases hX : flightProcess filt now (s, act) f with ⟨s', act'⟩
      rw [ih s' act' j, activeOf_cons]
      have hprim : (lookupA j s'.primitiveMap).isSome = true ↔
          (lookupA j s.primitiveMap).isSome = true ∨
            (passesFilter filt f = true ∧ j = f.icao24) := by
        by_cases hj : j = f.icao24
        · by_cases hpass : passesFilter filt f
          · rcases hex : lookupA f.icao24 s.primitiveMap with _ | hdl
            · obtain ⟨a, ha⟩ := flightProcess_prim_self_new filt now s act f hpass hex
              rw [hX] at ha
              rw [hj]
              simp [ha, hpass, hex]
            · have hu := flightProcess_prim_self_update filt now s act f hdl hpass hex
              rw [hX] at hu
              rw [hj]
              simp [hu, hpass, hex]
          · have hid := flightProcess_not_pass filt now s act f hpass
            rw [hX] at hid
            injection hid with h1 h2
            rw [h1]
            simp [hpass]
        · have ho := flightProcess_prim_other filt now s act f j hj
          rw [hX] at ho
          simp [ho, hj]
      rw [hprim]
      by_cases hpass : passesFilter filt f
      · simp only [hpass, if_pos, List.mem_cons, true_and]
        tauto
      · simp [hpass]

theorem foldl_prim_alloc :
    ∀ (fs : List Flight) (s : FlightSyncState) (act : List String) (j : String)
      (hdl : RenderHandle),
      lookupA j s.primitiveMap = some hdl →
      ∃ hdl', lookupA j (fs.foldl (flightProcess filt now) (s, act)).1.primitiveMap
          = some hdl' ∧ hdl'.alloc = hdl.alloc := by
  intro fs
  induction fs with
  | nil => intro s act j hdl h; exact ⟨hdl, h, rfl⟩
  | cons f fs ih =>
      intro s act j hdl h
      rw [List.foldl_cons]
      rcases hX : flightProcess filt now (s, act) f with ⟨s', act'⟩
      have hstep : ∃ hdl'', lookupA j s'.primitiveMap = some hdl'' ∧
          hdl''.alloc = hdl.alloc := by
        by_cases hj : j = f.icao24
        · by_cases hpass : passesFilter filt f
          · subst hj
            have hu := flightProcess_prim_self_update filt now s act f hdl hpass h
            rw [hX] at hu
            exact ⟨updatedHandle f hdl, hu, rfl⟩
          · have hid := flightProcess_not_pass filt now s act f hpass
            rw [hX] at hid
            injection hid with h1 h2
            rw [h1]
            exact ⟨hdl, h, rfl⟩
        · have ho := flightProcess_prim_other filt now s act f j hj
          rw [hX] at ho
          rw [ho]
          exact ⟨hdl, h, rfl⟩
      obtain ⟨hdl'', h'', halloc⟩ := hstep
      obtain ⟨hdl', h', halloc'⟩ := ih s' act' j hdl'' h''
      exact ⟨hdl', h', by rw [halloc', halloc]⟩

theorem foldl_untouched :
    ∀ (fs : List Flight) (s : FlightSyncState) (act : List String) (j : String),
      j ∉ activeOf filt fs →
      lookupA j (fs.foldl (flightProcess filt now) (s, act)).1.entityMap
          = lookupA j s.entityMap ∧
      lookupA j (fs.foldl (flightProcess filt now) (s, act)).1.positionMap
          = lookupA j s.positionMap ∧
      lookupA j (fs.foldl (flightProcess filt now) (s, act)).1.flightState
          = lookupA j s.flightState ∧
      lookupA j (fs.foldl (flightProcess filt now) (s, act)).1.primitiveMap
          = lookupA j s.primitiveMap := by
  intro fs
  induction fs with
  | nil => intro s act j _; exact ⟨rfl, rfl, rfl, rfl⟩
  | cons f fs ih =>
      intro s act j hj
      rw [activeOf_cons] at hj
      have hjfs : j ∉ activeOf filt fs := by
        intro hmem
        apply hj
        by_cases hpass : passesFilter filt f <;> simp [hpass, hmem]
      rw [List.foldl_cons]
      rcases hX : flightProcess filt now (s, act) f with ⟨s', act'⟩
      obtain ⟨h1, h2, h3, h4⟩ := ih s' act' j hjfs
      have hstep : lookupA j s'.entityMap = lookupA j s.entityMap ∧
          lookupA j s'.positionMap = lookupA j s.positionMap ∧
          lookupA j s'.flightState = lookupA j s.flightState ∧
          lookupA j s'.primitiveMap = lookupA j s.primitiveMap := by
        by_cases hpass : passesFilter filt f
        · have hj24 : ¬ j = f.icao24 := by
            intro heq
            apply hj
            simp [hpass, heq]
          have e1 := flightProcess_entity_other filt now s act f j hj24
          have e2 := flightProcess_pos_other filt now s act f j hj24
          have e3 := flightProcess_state_other filt now s act f j hj24
          have e4 := flightProcess_prim_other filt now s act f j hj24
          rw [hX] at e1 e2 e3 e4
          exact ⟨e1, e2, e3, e4⟩
        · have hid := flightProcess_not_pass filt now s act f hpass
          rw [hX] at hid
          injection hid with ha hb
          rw [ha]
          exact ⟨rfl, rfl, rfl, rfl⟩
      exact ⟨h1.trans hstep.1, h2.trans hstep.2.1, h3.trans hstep.2.2.1,
        h4.trans hstep.2.2.2⟩

theorem foldl_prim_nodup :
    ∀ (fs : List Flight) (s : FlightSyncState) (act : List String),
      (keysOf s.primitiveMap).Nodup →
      (keysOf (fs.foldl (flightProcess filt now) (s, act)).1.primitiveMap).Nodup := by
  intro fs
  induction fs with
  | nil => intro s act h; exact h
  | cons f fs ih =>
      intro s act h
      rw [List.foldl_cons]
      rcases hX : flightProcess filt now (s, act) f with ⟨s', act'⟩
      have hstep := flightProcess_prim_nodup filt now s act f h
      rw [hX] at hstep
      exact ih s' act' hstep

theorem getLast?_cons_isSome {α : Type} (b : α) (bs : List α) :
    ((b :: bs).getLast?).isSome = true := by
  induction bs generalizing b with
  | nil => rfl
  | cons c cs ih =>
      rw [List.getLast?_cons_cons]
      exact ih c

theorem lastPassing_cons_of_some (f : Flight) (fs : List Flight) (j : String)
    (g : Flight) (h : lastPassing filt fs j = some g) :
    lastPassing filt (f :: fs) j = some g := by
  unfold lastPassing at h ⊢
  rw [List.filter_cons]
  by_cases hq : (passesFilter filt f && decide (f.icao24 = j)) = true
  · rw [if_pos hq]
    rcases hl : fs.filter (fun f => passesFilter filt f && decide (f.icao24 = j)) with
        _ | ⟨b, bs⟩
    · rw [hl] at h
      simp at h
    · rw [hl] at h
      rw [List.getLast?_cons_cons]
      exact h
  · rw [if_neg hq]
    exact h

theorem lastPassing_cons_of_none (f : Flight) (fs : List Flight) (j : String)
    (h : lastPassing filt fs j = none) :
    lastPassing filt (f :: fs) j =
      if passesFilter filt f = true ∧ f.icao24 = j then some f else none := by
  unfold lastPassing at h ⊢
  have hnil : fs.filter (fun f => passesFilter filt f && decide (f.icao24 = j)) = [] := by
    rcases hl : fs.filter (fun f => passesFilter filt f && decide (f.icao24 = j)) with
        _ | ⟨b, bs⟩
    · rfl
    · rw [hl] at h
      have h2 := getLast?_cons_isSome b bs
      rw [h] at h2
      simp at h2
  rw [List.filter_cons, hnil]
  by_cases hq : (passesFilter filt f && decide (f.icao24 = j)) = true
  · rw [if_pos hq]
    have hq' : passesFilter filt f = true ∧ f.icao24 = j := by
      simpa using hq
    rw [if_pos hq']
    rfl
  · rw [if_neg hq]
    have hq' : ¬(passesFilter filt f = true ∧ f.icao24 = j) := by
      intro hc
      exact hq (by simp [hc.1, hc.2])
    rw [if_neg hq']
    rfl

theorem lastPassing_eq_none_iff (fs : List Flight) (j : String) :
    lastPassing filt fs j = none ↔ j ∉ activeOf filt fs := by
  constructor
  · intro h hmem
    rw [mem_activeOf_iff] at hmem
    obtain ⟨f, hf, hp, hj⟩ := hmem
    have hmemf : f ∈ fs.filter (fun f => passesFilter filt f && decide (f.icao24 = j)) := by
      rw [List.mem_filter]
      exact ⟨hf, by simp [hp, hj]⟩
    unfold lastPassing at h
    rcases hl : fs.filter (fun f => passesFilter filt f && decide (f.icao24 = j)) with
        _ | ⟨b, bs⟩
    · rw [hl] at hmemf
      simp at hmemf
    · rw [hl] at h
      have h2 := getLast?_cons_isSome b bs
      rw [h] at h2
      simp at h2
  · intro h
    unfold lastPassing
    have hnil : fs.filter (fun f => passesFilter filt f && decide (f.icao24 = j)) = [] := by
      rw [List.filter_eq_nil_iff]
      intro a ha hq
      apply h
      rw [mem_activeOf_iff]
      refine ⟨a, ha, ?_, ?_⟩
      · exact (Bool.and_eq_true _ _ |>.mp hq).1
      · simpa using (Bool.and_eq_true _ _ |>.mp hq).2
    rw [hnil]
    rfl

theorem foldl_prim_lastPass :
    ∀ (fs : List Flight) (s : FlightSyncState) (act : List String) (j : String)
      (f₀ : Flight) (hdl : RenderHandle),
      lastPassing filt fs j = some f₀ →
      lookupA j (fs.foldl (flightProcess filt now) (s, act)).1.primitiveMap = some hdl →
      hdl.billboard.position = cartOf f₀ ∧ hdl.label.position = cartOf f₀ ∧
      hdl.label.text = flightFullLabel f₀ := by
  intro fs
  induction fs with
  | nil =>
      intro s act j f₀ hdl h
      simp [lastPassing] at h
  | cons f fs ih =>
      intro s act j f₀ hdl hlast hlook
      rw [List.foldl_cons] at hlook
      rcases hX : flightProcess filt now (s, act) f with ⟨s', act'⟩
      rw [hX] at hlook
      rcases hl : lastPassing filt fs j with _ | g
      · have hcons := lastPassing_cons_of_none filt f fs j hl
        rw [hcons] at hlast
        by_cases hq : passesFilter filt f = true ∧ f.icao24 = j
        · rw [if_pos hq] at hlast
          injection hlast with hff₀
          subst hff₀
          have hjfs : j ∉ activeOf filt fs := (lastPassing_eq_none_iff filt fs j).mp hl
          have h4 := (foldl_untouched filt now fs s' act' j hjfs).2.2.2
          rw [h4] at hlook
          rcases hex : lookupA f.icao24 s.primitiveMap with _ | hdl₀
          · obtain ⟨a, ha⟩ := flightProcess_prim_self_new filt now s act f hq.1 hex
            rw [hX] at ha
            rw [← hq.2] at hlook
            rw [ha] at hlook
            injection hlook with hh
            rw [← hh]
            exact ⟨rfl, rfl, rfl⟩
          · have hu := flightProcess_prim_self_update filt now s act f hdl₀ hq.1 hex
            rw [hX] at hu
            rw [← hq.2] at hlook
            rw [hu] at hlook
            injection hlook with hh
            rw [← hh]
            exact ⟨rfl, rfl, rfl⟩
        · rw [if_neg hq] at hlast
          exact absurd hlast (by simp)
      · have hcons := lastPassing_cons_of_some filt f fs j g hl
        rw [hcons] at hlast
        injection hlast with hgf₀
        subst hgf₀
        exact ih s' act' j g hdl hl hlook

theorem isEmpty_false_of_ne_nil {fs : List Flight} (hfs : fs ≠ []) :
    fs.isEmpty = false := by
  cases fs with
  | nil => exact absurd rfl hfs
  | cons a l => rfl

theorem activeOf_subset_icaos (fs : List Flight) (j : String)
    (h : j ∈ activeOf filt fs) : j ∈ fs.map Flight.icao24 := by
  rw [mem_activeOf_iff] at h
  obtain ⟨f, hf, _, hj⟩ := h
  exact List.mem_map.mpr ⟨f, hf, hj⟩

theorem flightSync_prim_isSome (fs : List Flight) (tracked : Option String)
    (s : FlightSyncState) (j : String) (hfs : fs ≠ []) :
    (lookupA j (flightSync fs true filt tracked now s).primitiveMap).isSome = true ↔
      j ∈ activeOf filt fs := by
  have hne := isEmpty_false_of_ne_nil hfs
  simp only [flightSync, hne, Bool.not_true, Bool.false_or, Bool.false_eq_true,
    if_false]
  rw [lookupA_filterKeys]
  by_cases hj : j ∈ activeOf filt fs
  · have hmem : decide (j ∈ (fs.foldl (flightProcess filt now) (s, [])).2) = true := by
      rw [decide_eq_true_eq, foldl_act_mem]
      exact Or.inr hj
    rw [if_pos hmem]
    simp [foldl_prim_isSome, hj]
  · have hmem : decide (j ∈ (fs.foldl (flightProcess filt now) (s, [])).2) = false := by
      rw [decide_eq_false_iff_not, foldl_act_mem]
      simp [hj]
    rw [if_neg (by simp [hmem])]
    simp [hj]

theorem flightSync_prim_alloc (fs : List Flight) (tracked : Option String)
    (s : FlightSyncState) (j : String) (hdl : RenderHandle)
    (hj : j ∈ activeOf filt fs)
    (h : lookupA j s.primitiveMap = some hdl) :
    ∃ hdl', lookupA j (flightSync fs true filt tracked now s).primitiveMap
        = some hdl' ∧ hdl'.alloc = hdl.alloc := by
  have hfs : fs ≠ [] := by
    intro hnil
    rw [hnil] at hj
    simp [activeOf] at hj
  have hne := isEmpty_false_of_ne_nil hfs
  simp only [flightSync, hne, Bool.not_true, Bool.false_or, Bool.false_eq_true,
    if_false]
  rw [lookupA_filterKeys]
  have hmem : decide (j ∈ (fs.foldl (flightProcess filt now) (s, [])).2) = true := by
    rw [decide_eq_true_eq, foldl_act_mem]
    exact Or.inr hj
  rw [if_pos hmem]
  exact foldl_prim_alloc filt now fs s [] j hdl h

theorem flightSync_prim_lastPass (fs : List Flight) (tracked : Option String)
    (s : FlightSyncState) (j : String) (f₀ : Flight) (hdl : RenderHandle)
    (hfs : fs ≠ [])
    (hlast : lastPassing filt fs j = some f₀)
    (h : lookupA j (flightSync fs true filt tracked now s).primitiveMap = some hdl) :
    hdl.billboard.position = cartOf f₀ ∧ hdl.label.position = cartOf f₀ ∧
    hdl.label.text = flightFullLabel f₀ := by
  have hne := isEmpty_false_of_ne_nil hfs
  simp only [flightSync, hne, Bool.not_true, Bool.false_or, Bool.false_eq_true,
    if_false] at h
  rw [lookupA_filterKeys] at h
  by_cases hmem : decide (j ∈ (fs.foldl (flightProcess filt now) (s, [])).2) = true
  · rw [if_pos hmem] at h
    exact foldl_prim_lastPass filt now fs s [] j f₀ hdl hlast h
  · rw [if_neg (by simpa using hmem)] at h
    simp at h

theorem flightSync_prim_nodup (fs : List Flight) (visible : Bool)
    (tracked : Option String) (s : FlightSyncState)
    (h : (keysOf s.primitiveMap).Nodup) :
    (keysOf (flightSync fs visible filt tracked now s).primitiveMap).Nodup := by
  unfold flightSync
  by_cases hcond : (!visible || fs.isEmpty) = true
  · simp [hcond, keysOf]
  · simp only [hcond, Bool.false_eq_true, if_false]
    exact nodup_keysOf_filterKeys _ _ (foldl_prim_nodup filt now fs s [] h)

theorem lastPassing_isSome_of_active (fs : List Flight) (j : String)
    (hj : j ∈ activeOf filt fs) : ∃ f₀, lastPassing filt fs j = some f₀ := by
  rcases hl : lastPassing filt fs j with _ | f₀
  · exact absurd hj ((lastPassing_eq_none_iff filt fs j).mp hl)
  · exact ⟨f₀, rfl⟩

theorem flightSync_tracked_preserved (fs : List Flight) (visible : Bool)
    (X : String) (s : FlightSyncState) (hX : X ∉ activeOf filt fs) :
    lookupA X (flightSync fs visible filt (some X) now s).entityMap
        = lookupA X s.entityMap ∧
    lookupA X (flightSync fs visible filt (some X) now s).positionMap
        = lookupA X s.positionMap ∧
    lookupA X (flightSync fs visible filt (some X) now s).flightState
        = lookupA X s.flightState := by
  unfold flightSync
  by_cases hcond : (!visible || fs.isEmpty) = true
  · simp [hcond]
  · simp only [hcond, Bool.false_eq_true, if_false]
    obtain ⟨h1, h2, h3, _⟩ := foldl_untouched filt now fs s [] X hX
    have hkeep : ((fun k => decide (k ∈ (fs.foldl (flightProcess filt now) (s, [])).2) ||
        decide ((some X : Option String) = some k)) X) = true := by
      simp
    refine ⟨?_, ?_, ?_⟩
    · rw [lookupA_filterKeys, if_pos hkeep]
      exact h1
    · rw [lookupA_filterKeys]
      rw [if_pos ?_]
      · exact h2
      · simp
    · rw [lookupA_filterKeys]
      rw [if_pos ?_]
      · exact h3
      · simp

end SyncLemmas

/-- C1: after a commit of a non-empty batch with the layer visible, the set of
ids owning a RenderHandle equals exactly the set of ids of batch records whose
altitude band passes the active filter: every passing id has a handle and
every handle whose id is not in that set has been removed. -/
theorem c1_set_equality (flights : List Flight) (filt : AltitudeBand → Bool)
    (tracked : Option String) (now : ℚ) (s : FlightSyncState) (j : String)
    (hfs : flights ≠ []) :
    (lookupA j (flightSync flights true filt tracked now s).primitiveMap).isSome
        = true ↔
      j ∈ activeOf filt flights :=
  flightSync_prim_isSome filt now flights tracked s j hfs

/-- C1 (witness): committing the one-element batch [flightA] from the empty
state creates a handle exactly for its id. -/
theorem c1_set_equality_witness :
    ((lookupA "abc123"
        (flightSync [flightA] true allBands none 0 emptyState).primitiveMap).isSome
        = true ↔ "abc123" ∈ activeOf allBands [flightA]) ∧
    "abc123" ∈ activeOf allBands [flightA] := by
  constructor
  · exact c1_set_equality [flightA] allBands none 0 emptyState "abc123" (by simp)
  · decide

/-- C4: identity stability — an id passing the filter in two consecutively
committed batches keeps the same RenderHandle object across the second commit
(the allocation token of the handle after the second commit equals the one
after the first; the pair is mutated in place, never destroyed and
recreated). -/
theorem c4_identity_stability (B₁ B₂ : List Flight) (filt : AltitudeBand → Bool)
    (tr₁ tr₂ : Option String) (now₁ now₂ : ℚ) (s₀ : FlightSyncState) (j : String)
    (h₁ : j ∈ activeOf filt B₁) (h₂ : j ∈ activeOf filt B₂) :
    ∃ hdl₁ hdl₂,
      lookupA j (flightSync B₁ true filt tr₁ now₁ s₀).primitiveMap = some hdl₁ ∧
      lookupA j (flightSync B₂ true filt tr₂ now₂
          (flightSync B₁ true filt tr₁ now₁ s₀)).primitiveMap = some hdl₂ ∧
      hdl₂.alloc = hdl₁.alloc := by
  have hB₁ : B₁ ≠ [] := by
    intro hnil
    rw [hnil] at h₁
    simp [activeOf] at h₁
  have hsome₁ := (flightSync_prim_isSome filt now₁ B₁ tr₁ s₀ j hB₁).mpr h₁
  rcases hlk₁ : lookupA j (flightSync B₁ true filt tr₁ now₁ s₀).primitiveMap with
      _ | hdl₁
  · rw [hlk₁] at hsome₁
    simp at hsome₁
  · obtain ⟨hdl₂, hlk₂, halloc⟩ :=
      flightSync_prim_alloc filt now₂ B₂ tr₂ (flightSync B₁ true filt tr₁ now₁ s₀)
        j hdl₁ h₂ hlk₁
    exact ⟨hdl₁, hdl₂, rfl, hlk₂, halloc⟩

/-- C4 (witness): committing [flightA] twice from the empty state keeps the
handle of its id at the same allocation token. -/
theorem c4_identity_stability_witness :
    ∃ hdl₁ hdl₂,
      lookupA "abc123"
          (flightSync [flightA] true allBands none 0 emptyState).primitiveMap
        = some hdl₁ ∧
      lookupA "abc123"
          (flightSync [flightA] true allBands none 1 (flightSync [flightA] true
            allBands none 0 emptyState)).primitiveMap = some hdl₂ ∧
      hdl₂.alloc = hdl₁.alloc :=
  c4_identity_stability [flightA] [flightA] allBands none none 0 1 emptyState
    "abc123" (by decide) (by decide)

/-- C5: tracking survives absence — when the followed id X is omitted from the
committed batch, the commit leaves X's backing entity, live position entry and
dead-reckoning state untouched (the prune loop never removes the tracked
entity), and the next tracked tick still produces a well-defined position:
either frozen exactly at the last authoritative position or extrapolated by
the dead-reckoning step from it. This holds for every visibility flag. -/
theorem c5_tracking_survives (B : List Flight) (visible : Bool)
    (filt : AltitudeBand → Bool) (X : String) (now : ℚ) (s : FlightSyncState)
    (hX : X ∉ B.map Flight.icao24) :
    lookupA X (flightSync B visible filt (some X) now s).entityMap
        = lookupA X s.entityMap ∧
    lookupA X (flightSync B visible filt (some X) now s).positionMap
        = lookupA X s.positionMap ∧
    lookupA X (flightSync B visible filt (some X) now s).flightState
        = lookupA X s.flightState ∧
    (∀ st : FlightDRState, lookupA X s.flightState = some st →
      ∀ nowMs : ℝ,
        flightTrackedDR st nowMs = ((st.lat : ℝ), (st.lon : ℝ)) ∨
        ∃ h sp, st.heading = some h ∧ st.speed = some sp ∧
          flightTrackedDR st nowMs =
            drStep (st.lat : ℝ) (st.lon : ℝ) (h : ℝ) ((sp : ℝ) * 0.514444)
              ((nowMs - (st.updatedAt : ℝ)) / 1000)) := by
  have hXa : X ∉ activeOf filt B := fun h => hX (activeOf_subset_icaos filt B X h)
  obtain ⟨h1, h2, h3⟩ := flightSync_tracked_preserved filt now B visible X s hXa
  refine ⟨h1, h2, h3, ?_⟩
  intro st _ nowMs
  rcases hh : st.heading with _ | h
  · left
    simp [flightTrackedDR, hh]
  · rcases hs : st.speed with _ | sp
    · left
      simp [flightTrackedDR, hh, hs]
    · by_cases hcond : (sp : ℝ) > 10 ∧ 0 < (nowMs - (st.updatedAt : ℝ)) / 1000 ∧
          (nowMs - (st.updatedAt : ℝ)) / 1000 < 120
      · right
        refine ⟨h, sp, rfl, rfl, ?_⟩
        simp only [flightTrackedDR, hh, hs]
        rw [if_pos hcond]
      · left
        simp only [flightTrackedDR, hh, hs]
        rw [if_neg hcond]

/-- C5 (witness): committing [flightA] while "zzz" is followed leaves the
dead-reckoning state of "zzz" in place. -/
theorem c5_tracking_survives_witness :
    lookupA "zzz"
        (flightSync [flightA] true allBands (some "zzz") 0 trackedState).flightState
      = some fastFlightState := by
  have h := c5_tracking_survives [flightA] true allBands "zzz" 0 trackedState
    (by decide)
  rw [h.2.2.1]
  rfl

/-- C8: idempotence — committing the same batch twice in succession yields no
observable change to the visual state: the handle count is identical (the
second commit updates every id in place and the stale-removal pass removes
nothing) and every handle position and label text after the second commit
equals its value after the first. Stated from any starting state whose handle
map is well-formed (no duplicate keys). -/
theorem c8_idempotence (B : List Flight) (filt : AltitudeBand → Bool)
    (tr₁ tr₂ : Option String) (now₁ now₂ : ℚ) (s₀ : FlightSyncState)
    (hB : B ≠ []) (hnodup : (keysOf s₀.primitiveMap).Nodup) :
    (flightSync B true filt tr₂ now₂
        (flightSync B true filt tr₁ now₁ s₀)).primitiveMap.length
      = (flightSync B true filt tr₁ now₁ s₀).primitiveMap.length ∧
    (∀ (j : String) (hdl₂ : RenderHandle),
      lookupA j (flightSync B true filt tr₂ now₂
          (flightSync B true filt tr₁ now₁ s₀)).primitiveMap = some hdl₂ →
      ∃ hdl₁,
        lookupA j (flightSync B true filt tr₁ now₁ s₀).primitiveMap = some hdl₁ ∧
        hdl₂.billboard.position = hdl₁.billboard.position ∧
        hdl₂.label.position = hdl₁.label.position ∧
        hdl₂.label.text = hdl₁.label.text) := by
  set s₁ := flightSync B true filt tr₁ now₁ s₀ with hs₁
  set s₂ := flightSync B true filt tr₂ now₂ s₁ with hs₂
  have n₁ : (keysOf s₁.primitiveMap).Nodup :=
    flightSync_prim_nodup filt now₁ B true tr₁ s₀ hnodup
  have n₂ : (keysOf s₂.primitiveMap).Nodup :=
    flightSync_prim_nodup filt now₂ B true tr₂ s₁ n₁
  have hmem : ∀ j, j ∈ keysOf s₂.primitiveMap ↔ j ∈ keysOf s₁.primitiveMap := by
    intro j
    rw [← lookupA_isSome_iff_mem, ← lookupA_isSome_iff_mem]
    rw [show (lookupA j s₂.primitiveMap).isSome = true ↔ j ∈ activeOf filt B from
        flightSync_prim_isSome filt now₂ B tr₂ s₁ j hB,
      show (lookupA j s₁.primitiveMap).isSome = true ↔ j ∈ activeOf filt B from
        flightSync_prim_isSome filt now₁ B tr₁ s₀ j hB]
  have hfin : (keysOf s₂.primitiveMap).toFinset = (keysOf s₁.primitiveMap).toFinset := by
    ext j
    simp only [List.mem_toFinset]
    exact hmem j
  have hlen : (keysOf s₂.primitiveMap).length = (keysOf s₁.primitiveMap).length := by
    rw [← List.toFinset_card_of_nodup n₂, ← List.toFinset_card_of_nodup n₁, hfin]
  constructor
  · have e₂ : s₂.primitiveMap.length = (keysOf s₂.primitiveMap).length := by
      simp [keysOf]
    have e₁ : s₁.primitiveMap.length = (keysOf s₁.primitiveMap).length := by
      simp [keysOf]
    rw [e₂, e₁]
    exact hlen
  · intro j hdl₂ h₂
    have hsome₂ : (lookupA j s₂.primitiveMap).isSome = true := by
      rw [h₂]; rfl
    have hj : j ∈ activeOf filt B :=
      (flightSync_prim_isSome filt now₂ B tr₂ s₁ j hB).mp hsome₂
    obtain ⟨f₀, hf₀⟩ := lastPassing_isSome_of_active filt B j hj
    have hsome₁ : (lookupA j s₁.primitiveMap).isSome = true :=
      (flightSync_prim_isSome filt now₁ B tr₁ s₀ j hB).mpr hj
    rcases hlk₁ : lookupA j s₁.primitiveMap with _ | hdl₁
    · rw [hlk₁] at hsome₁
      simp at hsome₁
    · obtain ⟨p₂a, p₂b, p₂c⟩ :=
        flightSync_prim_lastPass filt now₂ B tr₂ s₁ j f₀ hdl₂ hB hf₀ h₂
      obtain ⟨p₁a, p₁b, p₁c⟩ :=
        flightSync_prim_lastPass filt now₁ B tr₁ s₀ j f₀ hdl₁ hB hf₀ hlk₁
      exact ⟨hdl₁, rfl, p₂a.trans p₁a.symm, p₂b.trans p₁b.symm, p₂c.trans p₁c.symm⟩

/-- C8 (witness): committing [flightA] twice from the empty state keeps the
handle count unchanged. -/
theorem c8_idempotence_witness :
    (flightSync [flightA] true allBands none 1
        (flightSync [flightA] true allBands none 0 emptyState)).primitiveMap.length
      = (flightSync [flightA] true allBands none 0 emptyState).primitiveMap.length :=
  (c8_idempotence [flightA] allBands none none 0 1 emptyState (by simp)
    (by decide)).1

/-- C9 (witness): for the camera at scaled-space height 2 above the north pole,
a vessel at the antipode gets its icon and label hidden by the occlusion pass
while its handle survives, the point beneath the camera is visible, and the
antipodal point is hidden. -/
theorem c9_occlusion_boundary_witness :
    lookupA "m" (shipOcclusionPass ⟨0, 0, 2⟩ [("m", ⟨0, 0, -1⟩)]
        [("m", sampleHandle)]) =
      some (occludedUpdate (isPointVisible ⟨0, 0, 2⟩ ⟨0, 0, -1⟩) sampleHandle) ∧
    isPointVisible ⟨0, 0, 2⟩ ⟨0, 0, 1⟩ = true ∧
    isPointVisible ⟨0, 0, 2⟩ ⟨0, 0, -1⟩ = false := by
  refine ⟨?_, ?_, ?_⟩
  · exact (c9_occlusion_boundary.2.1 ⟨0, 0, 2⟩ [("m", ⟨0, 0, -1⟩)]
      [("m", sampleHandle)] "m" sampleHandle ⟨0, 0, -1⟩ (by rfl) (by rfl)).1
  · exact (c9_occlusion_boundary.2.2 2 (by norm_num)).1
  · exact (c9_occlusion_boundary.2.2 2 (by norm_num)).2

end Worldview
